/-
Verification of the Ordinal-Browser security agent core.

Shallow embedding of the aggregation/orchestration core of the agent:
  * the `ThreatReport` rollup model        (src/agent/core/agent.py)
  * the result cache                       (src/agent/core/agent.py)
  * the phishing URL analyzer              (src/agent/analyzers/phishing_analyzer.py)
  * the broadcast / streaming service      (src/agent/api/grpc_server.py)
  * the realtime monitor alert cap        (src/agent/core/realtime_monitor.py)

Python floats are embedded as exact rationals (`Rat`); Python ints as `Nat`/`Int`.
-/
import Mathlib

set_option maxRecDepth 100000

namespace Ordinal

-- ============================================================
-- Data model: ThreatLevel, ThreatType, ThreatDetail, ThreatReport
-- (src/agent/core/agent.py, lines 31-94)
-- ============================================================

/-- `ThreatLevel` is an `IntEnum` in the source (SAFE=0 .. CRITICAL=4);
it is embedded as a natural number with the same fixed mapping. -/
abbrev ThreatLevel := Nat

namespace ThreatLevel

def SAFE : ThreatLevel := 0
def LOW : ThreatLevel := 1
def MEDIUM : ThreatLevel := 2
def HIGH : ThreatLevel := 3
def CRITICAL : ThreatLevel := 4

end ThreatLevel

/-- Threat categories (`ThreatType` in the source). -/
inductive ThreatType where
  | phishing
  | malware
  | xss
  | privacy
  | cert
deriving DecidableEq, Repr

/-- One analyzer's verdict (`ThreatDetail` dataclass).  The open
`metadata` map is omitted: no rollup / cache / broadcast code reads it. -/
structure ThreatDetail where
  threat_type : ThreatType
  threat_level : ThreatLevel
  confidence : Rat
  description : String := ""
  indicators : List String := []
deriving DecidableEq, Repr

/-- The aggregate report (`ThreatReport` dataclass).  `timestamp` and
`analysis_time_ms` are wall-clock values, carried as rationals. -/
structure ThreatReport where
  url : String
  overall_level : ThreatLevel := ThreatLevel.SAFE
  overall_score : Rat := 0
  details : List ThreatDetail := []
  recommendations : List String := []
  analysis_time_ms : Rat := 0
  cached : Bool := false
  timestamp : Rat := 0
deriving DecidableEq, Repr

namespace ThreatReport

/-- `ThreatReport._recalculate` (agent.py lines 77-94): recompute
`overall_level` (max of levels) and `overall_score` (confidence-weighted
average of `confidence * threat_level / CRITICAL`, capped by `min(1.0, ·)`). -/
def recalculate (r : ThreatReport) : ThreatReport :=
  if r.details.isEmpty then
    { r with overall_level := ThreatLevel.SAFE, overall_score := 0 }
  else
    let lvl := (r.details.map (·.threat_level)).foldl max 0
    let total_weight := (r.details.map (·.confidence)).sum
    let score :=
      if 0 < total_weight then
        min 1 (((r.details.map
          (fun d => d.confidence * ((d.threat_level : Rat) / (ThreatLevel.CRITICAL : Nat)))).sum)
            / total_weight)
      else 0
    { r with overall_level := lvl, overall_score := score }

/-- `ThreatReport.add_detail` (agent.py lines 72-75): append and recompute. -/
def add_detail (r : ThreatReport) (d : ThreatDetail) : ThreatReport :=
  ThreatReport.recalculate { r with details := r.details ++ [d] }

end ThreatReport

/-- Accumulate a finite sequence of findings into a fresh report for `url`
through `add_detail`, exactly as the orchestrator does. -/
def mkReport (url : String) (ds : List ThreatDetail) : ThreatReport :=
  ds.foldl ThreatReport.add_detail { url := url }

-- ============================================================
-- Spec-side definitions (spec.md §4.2), for the refinement claim C1
-- ============================================================

/-- Clamp a rational to the interval [0, 1] (the spec's `clamp(·, 0, 1)`). -/
def clamp01 (q : Rat) : Rat := min 1 (max 0 q)

/-- Modelled from the spec's words (§4.2): `overall_level` is the maximum
`threat_level` of the findings, or `safe` when there are none. -/
def specOverallLevel (ds : List ThreatDetail) : ThreatLevel :=
  (ds.map (·.threat_level)).foldl max ThreatLevel.SAFE

/-- Modelled from the spec's words (§4.2): the confidence-weighted average
`sum(confidence * level/critical) / sum(confidence)` clamped to [0,1] when the
total weight is positive, else 0. -/
def specOverallScore (ds : List ThreatDetail) : Rat :=
  let tw := (ds.map (·.confidence)).sum
  if 0 < tw then
    clamp01 ((ds.map (fun d => d.confidence * ((d.threat_level : Rat) / 4))).sum / tw)
  else 0

-- ============================================================
-- Helper lemmas for the rollup
-- ============================================================

@[simp] lemma recalculate_details (r : ThreatReport) :
    (r.recalculate).details = r.details := by
  unfold ThreatReport.recalculate
  split <;> rfl

@[simp] lemma recalculate_url (r : ThreatReport) :
    (r.recalculate).url = r.url := by
  unfold ThreatReport.recalculate
  split <;> rfl

@[simp] lemma add_detail_details (r : ThreatReport) (d : ThreatDetail) :
    (r.add_detail d).details = r.details ++ [d] := by
  simp [ThreatReport.add_detail]

/-- After any nonempty fold of `add_detail`, the rollup fields come from the
code formula applied to all accumulated details. -/
lemma foldl_add_detail_spec (ds : List ThreatDetail) (r : ThreatReport) (h : ds ≠ []) :
    (ds.foldl ThreatReport.add_detail r).overall_level
        = ((r.details ++ ds).map (·.threat_level)).foldl max 0
    ∧ (ds.foldl ThreatReport.add_detail r).overall_score
        = (let all := r.details ++ ds
           let tw := (all.map (·.confidence)).sum
           if 0 < tw then
             min 1 ((all.map (fun d => d.confidence * ((d.threat_level : Rat) / 4))).sum / tw)
           else 0) := by
  induction ds generalizing r with
  | nil => exact absurd rfl h
  | cons d ds ih =>
    cases ds with
    | nil =>
      simp only [List.foldl]
      constructor
      · simp [ThreatReport.add_detail, ThreatReport.recalculate, ThreatLevel.CRITICAL]
      · simp [ThreatReport.add_detail, ThreatReport.recalculate, ThreatLevel.CRITICAL]
    | cons d2 ds2 =>
      have hne : d2 :: ds2 ≠ [] := by simp
      have := ih (r.add_detail d) hne
      simpa [List.append_assoc] using this

lemma foldl_add_detail_details (ds : List ThreatDetail) (r : ThreatReport) :
    (ds.foldl ThreatReport.add_detail r).details = r.details ++ ds := by
  induction ds generalizing r with
  | nil => simp
  | cons d ds ih => simp [ih, List.append_assoc]

-- ============================================================
-- C1: rollup correctness
-- ============================================================

/-- **C1**: for every finite sequence of findings accumulated into a
`ThreatReport` via `add_detail` (each with nonnegative confidence, as the data
model guarantees `confidence ∈ [0,1]`), `overall_level` is the maximum
`threat_level` (or SAFE when empty) and `overall_score` is the
confidence-weighted average clamped to [0,1] when the total weight is
positive, else 0. -/
theorem rollup_correct (url : String) (ds : List ThreatDetail)
    (h : ∀ d ∈ ds, 0 ≤ d.confidence) :
    (mkReport url ds).overall_level = specOverallLevel ds
    ∧ (mkReport url ds).overall_score = specOverallScore ds := by
  cases ds with
  | nil =>
    constructor
    · rfl
    · simp [mkReport, specOverallScore]
  | cons d0 ds0 =>
    have hne : d0 :: ds0 ≠ [] := by simp
    obtain ⟨hl, hs⟩ := foldl_add_detail_spec (d0 :: ds0) { url := url } hne
    refine ⟨?_, ?_⟩
    · simpa [specOverallLevel, ThreatLevel.SAFE] using hl
    · rw [mkReport, hs]
      simp only [specOverallScore]
      set all := (d0 :: ds0)
      have hdet : (({ url := url } : ThreatReport).details ++ all) = all := by simp
      rw [hdet]
      by_cases htw : 0 < (all.map (·.confidence)).sum
      · have hws : 0 ≤ (all.map (fun d => d.confidence * ((d.threat_level : Rat) / 4))).sum := by
          apply List.sum_nonneg
          intro x hx
          simp only [List.mem_map] at hx
          obtain ⟨d, hd, rfl⟩ := hx
          have hc := h d hd
          have hlvl : (0 : Rat) ≤ (d.threat_level : Rat) / 4 := by positivity
          exact mul_nonneg hc hlvl
        have hq : 0 ≤ (all.map (fun d => d.confidence * ((d.threat_level : Rat) / 4))).sum
            / (all.map (·.confidence)).sum := div_nonneg hws (le_of_lt htw)
        simp [htw, clamp01, max_eq_right hq]
      · simp [htw]

/-- A concrete medium-level phishing finding, for witnesses. -/
def sampleDetail1 : ThreatDetail := ⟨ThreatType.phishing, 2, 1/2, "", []⟩

/-- A concrete critical malware finding, for witnesses. -/
def sampleDetail2 : ThreatDetail := ⟨ThreatType.malware, 4, 1/4, "", []⟩

/-- Witness for C1 at a concrete two-finding report. -/
theorem rollup_correct_witness :
    (∀ d ∈ [sampleDetail1, sampleDetail2], 0 ≤ d.confidence)
    ∧ ((mkReport "http://x" [sampleDetail1, sampleDetail2]).overall_level
          = specOverallLevel [sampleDetail1, sampleDetail2]
        ∧ (mkReport "http://x" [sampleDetail1, sampleDetail2]).overall_score
          = specOverallScore [sampleDetail1, sampleDetail2]) :=
  have h : ∀ d ∈ [sampleDetail1, sampleDetail2], 0 ≤ d.confidence := by
    norm_num [sampleDetail1, sampleDetail2, List.forall_mem_cons]
  ⟨h, rollup_correct "http://x" _ h⟩

-- ============================================================
-- Result cache (agent.py lines 203-212 and 689-737)
-- ============================================================

/-- `_CacheEntry` dataclass (agent.py lines 203-212). -/
structure CacheEntry where
  report : ThreatReport
  created_at : Rat
  ttl : Rat
deriving DecidableEq, Repr

/-- `_CacheEntry.is_expired` read at wall-clock time `now`:
`(time.time() - self.created_at) > self.ttl`. -/
def CacheEntry.isExpiredAt (e : CacheEntry) (now : Rat) : Bool :=
  now - e.created_at > e.ttl

/-- The agent's `_cache` dict.  A Python dict is insertion-ordered, so it is
embedded as an association list, oldest insertion first, keys unique. -/
abbrev Cache := List (String × CacheEntry)

/-- Relevant fields of `config.llm` (config.py lines 56-58), with the
source's default values. -/
structure LLMCacheConfig where
  cache_enabled : Bool := true
  cache_ttl_seconds : Rat := 3600
  cache_max_size : Nat := 1000
deriving DecidableEq, Repr

/-- Python `dict[key] = value`: replace in place when the key exists
(keeping its insertion position; a dict's keys are unique), otherwise
append at the end. -/
def dictInsert : Cache → String → CacheEntry → Cache
  | [], k, e => [(k, e)]
  | p :: rest, k, e =>
    if p.1 == k then (k, e) :: rest else p :: dictInsert rest k e

/-- Python `del dict[key]`. -/
def cacheErase (c : Cache) (k : String) : Cache :=
  c.filter (fun p => p.1 != k)

/-- `SecurityAgent._get_cached` (agent.py lines 693-708).  On a hit the
source executes `report = entry.report; report.cached = True; return report`:
it flips the flag on the report object stored inside the cache entry and
returns that same object by reference.  The embedding makes the in-place
mutation explicit by returning the looked-up report together with the
updated cache state. -/
def getCached (cfg : LLMCacheConfig) (now : Rat) (c : Cache) (key : String) :
    Option ThreatReport × Cache :=
  if cfg.cache_enabled = false then (none, c)
  else
    match c.lookup key with
    | none => (none, c)
    | some entry =>
      if entry.isExpiredAt now then (none, cacheErase c key)
      else
        let report := { entry.report with cached := true }
        (some report, dictInsert c key { entry with report := report })

/-- `SecurityAgent._set_cached` (agent.py lines 710-726): when the cache is
at capacity, evict the oldest-inserted entry (`next(iter(self._cache))`),
then store the new entry. -/
def setCached (cfg : LLMCacheConfig) (now : Rat) (c : Cache) (key : String)
    (report : ThreatReport) : Cache :=
  if cfg.cache_enabled = false then c
  else
    let c1 := if cfg.cache_max_size ≤ c.length then
        match c with
        | [] => ([] : Cache)
        | _ :: rest => rest
      else c
    dictInsert c1 key ⟨report, now, cfg.cache_ttl_seconds⟩

-- ============================================================
-- Cache lemmas
-- ============================================================

lemma dictInsert_lookup (c : Cache) (k : String) (e : CacheEntry) :
    (dictInsert c k e).lookup k = some e := by
  induction c with
  | nil => simp [dictInsert, List.lookup]
  | cons p rest ih =>
    obtain ⟨a, b⟩ := p
    cases hab : (a == k) with
    | true =>
      simp only [dictInsert, hab, if_true, List.lookup, beq_self_eq_true]
    | false =>
      have hka : (k == a) = false :=
        beq_eq_false_iff_ne.mpr (Ne.symm (beq_eq_false_iff_ne.mp hab))
      simp [dictInsert, hab, List.lookup, hka, ih]

lemma cacheErase_lookup (c : Cache) (k : String) :
    (cacheErase c k).lookup k = none := by
  induction c with
  | nil => rfl
  | cons p rest ih =>
    obtain ⟨a, b⟩ := p
    by_cases hp : a = k
    · have hb : (a != k) = false := by simp [hp]
      simpa [cacheErase, List.filter, hb] using ih
    · have hb : (a != k) = true := by simp [hp]
      have hb2 : (k == a) = false := beq_eq_false_iff_ne.mpr (Ne.symm hp)
      simp only [cacheErase, List.filter, hb] at ih ⊢
      simp only [List.lookup, hb2]
      exact ih

lemma setCached_lookup (cfg : LLMCacheConfig) (now : Rat) (c : Cache)
    (key : String) (report : ThreatReport) (hen : cfg.cache_enabled = true) :
    (setCached cfg now c key report).lookup key
      = some ⟨report, now, cfg.cache_ttl_seconds⟩ := by
  unfold setCached
  simp only [hen]
  exact dictInsert_lookup _ _ _

-- ============================================================
-- C6: cache set-then-get correctness, lazy expiry
-- ============================================================

/-- **C6**: with caching enabled, storing a report and reading it back within
the TTL yields that report with `cached = true`; reading it back strictly
more than `ttl` seconds after storage is a miss and deletes the entry. -/
theorem cache_set_then_get (cfg : LLMCacheConfig) (c : Cache) (key : String)
    (report : ThreatReport) (now1 now2 : Rat) (hen : cfg.cache_enabled = true) :
    (now2 - now1 ≤ cfg.cache_ttl_seconds →
      (getCached cfg now2 (setCached cfg now1 c key report) key).1
        = some { report with cached := true })
    ∧ (cfg.cache_ttl_seconds < now2 - now1 →
      (getCached cfg now2 (setCached cfg now1 c key report) key).1 = none
      ∧ ((getCached cfg now2 (setCached cfg now1 c key report) key).2.lookup key)
          = none) := by
  have hl := setCached_lookup cfg now1 c key report hen
  constructor
  · intro hfresh
    have hx : CacheEntry.isExpiredAt ⟨report, now1, cfg.cache_ttl_seconds⟩ now2 = false := by
      simp [CacheEntry.isExpiredAt, not_lt.mpr hfresh]
    simp [getCached, hen, hl, hx]
  · intro hold
    have hx : CacheEntry.isExpiredAt ⟨report, now1, cfg.cache_ttl_seconds⟩ now2 = true := by
      simp [CacheEntry.isExpiredAt, hold]
    refine ⟨?_, ?_⟩
    · simp [getCached, hen, hl, hx]
    · simp [getCached, hen, hl, hx, cacheErase_lookup]

/-- A concrete report stored in the sample cache states below. -/
def sampleReport : ThreatReport := { url := "http://a" }

/-- Witness for C6: ttl 10, hit at elapsed time 5, miss at elapsed time 11. -/
theorem cache_set_then_get_witness :
    (({ cache_ttl_seconds := 10 } : LLMCacheConfig).cache_enabled = true)
    ∧ ((0 - 0 ≤ ({ cache_ttl_seconds := 10 } : LLMCacheConfig).cache_ttl_seconds →
        (getCached { cache_ttl_seconds := 10 } 0
          (setCached { cache_ttl_seconds := 10 } 0 [] "k" sampleReport) "k").1
          = some { sampleReport with cached := true })
      ∧ (({ cache_ttl_seconds := 10 } : LLMCacheConfig).cache_ttl_seconds < 0 - 0 →
        (getCached { cache_ttl_seconds := 10 } 0
          (setCached { cache_ttl_seconds := 10 } 0 [] "k" sampleReport) "k").1 = none
        ∧ ((getCached { cache_ttl_seconds := 10 } 0
          (setCached { cache_ttl_seconds := 10 } 0 [] "k" sampleReport) "k").2.lookup "k")
            = none)) :=
  ⟨rfl, cache_set_then_get { cache_ttl_seconds := 10 } [] "k" sampleReport 0 0 rfl⟩

-- ============================================================
-- C5: a cache hit mutates the stored entry (counterexample + amended)
-- ============================================================

/-- A one-entry cache whose stored report has `cached = false`. -/
def sampleCache : Cache := [("k", ⟨sampleReport, 0, 10⟩)]

/-- **C5 counterexample**: the claim says the report object held inside the
cache entry is left unchanged by `_get_cached`.  In the code the hit path
sets `cached = True` on the stored report itself: after one get, the entry
stored under "k" carries `cached = true` while it held `cached = false`
before, so the stored report is not left unchanged. -/
theorem cache_hit_mutates_stored_entry :
    ((getCached {} 0 sampleCache "k").2.lookup "k").map (fun e => e.report.cached)
        = some true
    ∧ (sampleCache.lookup "k").map (fun e => e.report.cached) = some false := by
  constructor
  · norm_num [getCached, sampleCache, sampleReport, CacheEntry.isExpiredAt,
      dictInsert, List.lookup]
  · norm_num [sampleCache, sampleReport, List.lookup]

/-- **C5 amended**: a cache hit sets `cached := true` on the report stored in
the cache entry itself and returns that same mutated report (shared by
reference, not a copy); the cache entry is updated in place. -/
theorem cache_hit_shares_mutated_report (cfg : LLMCacheConfig) (now : Rat)
    (c : Cache) (key : String) (entry : CacheEntry)
    (hen : cfg.cache_enabled = true)
    (hl : c.lookup key = some entry)
    (hx : entry.isExpiredAt now = false) :
    getCached cfg now c key
      = (some { entry.report with cached := true },
         dictInsert c key { entry with report := { entry.report with cached := true } }) := by
  simp [getCached, hen, hl, hx]

/-- Witness for the amended C5 on the concrete one-entry cache. -/
theorem cache_hit_shares_mutated_report_witness :
    (({} : LLMCacheConfig).cache_enabled = true)
    ∧ sampleCache.lookup "k" = some ⟨sampleReport, 0, 10⟩
    ∧ CacheEntry.isExpiredAt ⟨sampleReport, 0, 10⟩ 0 = false
    ∧ getCached {} 0 sampleCache "k"
        = (some { sampleReport with cached := true },
           dictInsert sampleCache "k"
             ⟨{ sampleReport with cached := true }, 0, 10⟩) := by
  have h1 : sampleCache.lookup "k" = some ⟨sampleReport, 0, 10⟩ := by
    norm_num [sampleCache, List.lookup]
  have h2 : CacheEntry.isExpiredAt ⟨sampleReport, 0, 10⟩ 0 = false := by
    norm_num [CacheEntry.isExpiredAt]
  exact ⟨rfl, h1, h2, cache_hit_shares_mutated_report {} 0 sampleCache "k" _ rfl h1 h2⟩

-- ============================================================
-- Orchestration: analyze_page result collection and analyze_url
-- (agent.py lines 294-341 and 398-470)
-- ============================================================

/-- One element of the `asyncio.gather(*tasks, return_exceptions=True)`
result list in `analyze_page` (agent.py line 440): an analyzer either raised
an exception, returned `None`, returned one detail, or a list of details. -/
inductive AnalyzerOutcome where
  | failed
  | absent
  | one (d : ThreatDetail)
  | many (ds : List ThreatDetail)
deriving DecidableEq, Repr

/-- One iteration of the result-collection loop in `analyze_page`
(agent.py lines 443-452): exceptions are logged and skipped, `None` is
skipped, lists are added detail by detail, single details are added. -/
def collectOutcome (r : ThreatReport) (o : AnalyzerOutcome) : ThreatReport :=
  match o with
  | .failed => r
  | .absent => r
  | .one d => r.add_detail d
  | .many ds => ds.foldl ThreatReport.add_detail r

/-- The whole collection loop of `analyze_page` over the gathered results. -/
def collectResults (r : ThreatReport) (results : List AnalyzerOutcome) : ThreatReport :=
  results.foldl collectOutcome r

/-- The findings contributed by the analyzers that neither failed nor
abstained, in completion order. -/
def okDetails : List AnalyzerOutcome → List ThreatDetail
  | [] => []
  | .failed :: rest => okDetails rest
  | .absent :: rest => okDetails rest
  | .one d :: rest => d :: okDetails rest
  | .many ds :: rest => ds ++ okDetails rest

/-- `SecurityAgent.analyze_url` (agent.py lines 294-341) on a cache miss.
The await of `self._phishing_analyzer.analyze_url(url)` at line 320 is not
wrapped in any try/except, so an analyzer exception propagates out of the
orchestrator call; the LLM path is internally shielded
(`_analyze_url_with_llm` catches every exception and returns `None`). -/
def analyzeUrlMerge (url : String)
    (phishing : Except String (Option ThreatDetail))
    (llm : Option ThreatDetail) : Except String ThreatReport :=
  match phishing with
  | .error e => .error e
  | .ok pd =>
    let r0 : ThreatReport := { url := url }
    let r1 := match pd with
      | some d => r0.add_detail d
      | none => r0
    let r2 := match llm with
      | some d => r1.add_detail d
      | none => r1
    .ok r2

lemma collectResults_eq_fold (results : List AnalyzerOutcome) (r : ThreatReport) :
    collectResults r results = (okDetails results).foldl ThreatReport.add_detail r := by
  induction results generalizing r with
  | nil => rfl
  | cons o rest ih =>
    cases o with
    | failed => simpa [collectResults, collectOutcome, okDetails] using ih r
    | absent => simpa [collectResults, collectOutcome, okDetails] using ih r
    | one d =>
      simpa [collectResults, collectOutcome, okDetails] using ih (r.add_detail d)
    | many ds =>
      simp only [collectResults, List.foldl, collectOutcome, okDetails,
        List.foldl_append]
      simpa [collectResults] using ih (ds.foldl ThreatReport.add_detail r)

/-- Shared rollup helper: the maximum-level rollup of any `add_detail` fold. -/
lemma mkReport_overall_level (url : String) (ds : List ThreatDetail) :
    (mkReport url ds).overall_level = specOverallLevel ds := by
  cases ds with
  | nil => rfl
  | cons d0 ds0 =>
    have hne : d0 :: ds0 ≠ [] := by simp
    have h := (foldl_add_detail_spec (d0 :: ds0) { url := url } hne).1
    simpa [specOverallLevel, ThreatLevel.SAFE, mkReport] using h

-- ============================================================
-- C3 counterexample and amended isolation theorem
-- ============================================================

/-- **C3 counterexample**: the claim says an analyzer infrastructure failure
during an analysis call is always recovered locally inside the orchestrator
and never surfaces as a call-level error.  In `analyze_url` the phishing
analyzer is awaited unprotected, so its exception escapes the call. -/
theorem analyze_url_error_surfaces :
    analyzeUrlMerge "http://x" (.error "urlparse crash") none
      = .error "urlparse crash" := rfl

/-- **C3 amended**: in `analyze_page` (gather with `return_exceptions=True`)
an analyzer failure is isolated: the merged report is exactly the fold of the
successful analyzers' findings, and its `overall_level` is the maximum level
among those findings — a failed analyzer contributes nothing and never
suppresses the others.  (In `analyze_url`/`analyze_script` the heuristic
analyzer's exception instead propagates as a call-level error.) -/
theorem analyze_page_isolation (url : String) (results : List AnalyzerOutcome) :
    collectResults { url := url } results
      = mkReport url (okDetails results)
    ∧ (collectResults { url := url } results).overall_level
      = specOverallLevel (okDetails results) := by
  refine ⟨collectResults_eq_fold results _, ?_⟩
  rw [collectResults_eq_fold results _]
  exact mkReport_overall_level url (okDetails results)

-- ============================================================
-- gRPC service: broadcast, streaming filter, security score
-- (src/agent/api/grpc_server.py)
-- ============================================================

/-- The proto-compatible report dictionary built by `_report_to_dict`
(grpc_server.py lines 101-112); only the fields the broadcast/stream layer
reads are carried. -/
structure RpcReport where
  url : String := ""
  overall_level : Nat := 0
  overall_score : Rat := 0
  cached : Bool := false
deriving DecidableEq, Repr

/-- A subscriber's `asyncio.Queue`, oldest item first; `get_nowait` removes
the head, `put_nowait` appends. -/
abbrev SubscriberQueue := List RpcReport

/-- `asyncio.Queue(maxsize=100)` in `StreamThreats` (grpc_server.py line 367). -/
def queueMaxSize : Nat := 100

/-- The per-queue put sequence of `_broadcast_threat` (grpc_server.py lines
433-442): `put_nowait`; on `QueueFull`, `get_nowait` (evict the oldest) and
retry `put_nowait`; if the retry would still overflow, the new item is
silently dropped.  Always total: the broadcaster never blocks or raises. -/
def putWithDropOldest (q : SubscriberQueue) (r : RpcReport) : SubscriberQueue :=
  if q.length < queueMaxSize then q ++ [r]
  else if (q.drop 1).length < queueMaxSize then q.drop 1 ++ [r]
  else q.drop 1

/-- `_broadcast_threat` (grpc_server.py lines 427-442): SAFE reports
(`overall_level == 0`) are never broadcast; otherwise the report is offered
to every registered subscriber queue. -/
def broadcastThreat (r : RpcReport) (qs : List SubscriberQueue) : List SubscriberQueue :=
  if r.overall_level = 0 then qs
  else qs.map (fun q => putWithDropOldest q r)

/-- The delivery filter of `StreamThreats` (grpc_server.py line 379): a
dequeued report is yielded to the subscriber iff
`overall_level >= min_level`. -/
def streamDelivers (min_level : Nat) (r : RpcReport) : Bool :=
  min_level ≤ r.overall_level

/-- Fold a whole sequence of broadcasts over the subscriber queues. -/
def broadcastAll (rs : List RpcReport) (qs : List SubscriberQueue) : List SubscriberQueue :=
  rs.foldl (fun acc r => broadcastThreat r acc) qs

lemma mem_putWithDropOldest {x r : RpcReport} {q : SubscriberQueue}
    (h : x ∈ putWithDropOldest q r) : x ∈ q ∨ x = r := by
  unfold putWithDropOldest at h
  split at h
  · rcases List.mem_append.mp h with h1 | h1
    · exact Or.inl h1
    · exact Or.inr (List.mem_singleton.mp h1)
  · split at h
    · rcases List.mem_append.mp h with h1 | h1
      · exact Or.inl (List.drop_subset 1 q h1)
      · exact Or.inr (List.mem_singleton.mp h1)
    · exact Or.inl (List.drop_subset 1 q h)

/-- No SAFE report ever enters any subscriber queue through broadcasting. -/
lemma broadcastAll_nonsafe (rs : List RpcReport) (qs : List SubscriberQueue)
    (hqs : ∀ q ∈ qs, ∀ x ∈ q, x.overall_level ≠ 0) :
    ∀ q ∈ broadcastAll rs qs, ∀ x ∈ q, x.overall_level ≠ 0 := by
  induction rs generalizing qs with
  | nil => exact hqs
  | cons r rest ih =>
    have hstep : broadcastAll (r :: rest) qs = broadcastAll rest (broadcastThreat r qs) := rfl
    rw [hstep]
    apply ih
    intro q hq x hx
    by_cases hr : r.overall_level = 0
    · rw [broadcastThreat, if_pos hr] at hq
      exact hqs q hq x hx
    · rw [broadcastThreat, if_neg hr] at hq
      obtain ⟨q0, hq0, rfl⟩ := List.mem_map.mp hq
      rcases mem_putWithDropOldest hx with h1 | rfl
      · exact hqs q0 hq0 x h1
      · exact hr

-- ============================================================
-- C7: broadcast filtering
-- ============================================================

/-- **C7**: (i) a subscriber with minimum level `m` never yields a report
with `overall_level < m`; (ii) SAFE reports are never broadcast — the
subscriber queues are untouched; (iii) starting from empty queues, no
sequence of broadcasts ever places a SAFE report in any queue, so SAFE is
never delivered to any subscriber; (iv) a subscriber with `min_level = LOW`
yields every non-safe report it dequeues. -/
theorem stream_threat_filtering :
    (∀ (m : Nat) (r : RpcReport), streamDelivers m r = true → m ≤ r.overall_level)
    ∧ (∀ (r : RpcReport) (qs : List SubscriberQueue),
        r.overall_level = 0 → broadcastThreat r qs = qs)
    ∧ (∀ (rs : List RpcReport) (n : Nat),
        ∀ q ∈ broadcastAll rs (List.replicate n []),
          ∀ x ∈ q, x.overall_level ≠ 0)
    ∧ (∀ r : RpcReport, r.overall_level ≠ 0 →
        streamDelivers ThreatLevel.LOW r = true) := by
  refine ⟨?_, ?_, ?_, ?_⟩
  · intro m r h
    simpa [streamDelivers] using h
  · intro r qs h
    simp [broadcastThreat, h]
  · intro rs n
    apply broadcastAll_nonsafe
    intro q hq x hx
    have : q = ([] : SubscriberQueue) := List.eq_of_mem_replicate hq
    subst this
    simp at hx
  · intro r h
    simp [streamDelivers, ThreatLevel.LOW, Nat.one_le_iff_ne_zero, h]

/-- A concrete non-safe report, for witnesses. -/
def sampleRpcReport : RpcReport := { url := "http://x", overall_level := 3 }

/-- A concrete SAFE report, for witnesses. -/
def safeRpcReport : RpcReport := { url := "http://safe" }

/-- Witness for C7 at concrete inputs. -/
theorem stream_threat_filtering_witness :
    (streamDelivers 2 sampleRpcReport = true ∧ 2 ≤ sampleRpcReport.overall_level)
    ∧ (safeRpcReport.overall_level = 0
        ∧ broadcastThreat safeRpcReport [[sampleRpcReport]] = [[sampleRpcReport]])
    ∧ (sampleRpcReport.overall_level ≠ 0
        ∧ streamDelivers ThreatLevel.LOW sampleRpcReport = true) := by
  have h := stream_threat_filtering
  refine ⟨⟨rfl, h.1 2 sampleRpcReport rfl⟩, ⟨rfl, h.2.1 safeRpcReport _ rfl⟩,
    ⟨by decide, h.2.2.2 sampleRpcReport (by decide)⟩⟩

-- ============================================================
-- C8: no-block drop-oldest broadcast
-- ============================================================

/-- **C8**: broadcasting a non-safe report acts on each subscriber queue
independently (a per-queue total function: never blocks, never raises); on
each queue whose length is within capacity the new report is admitted as the
newest element, at full capacity the oldest element is evicted to make room,
and the capacity bound is preserved. -/
theorem broadcast_drop_oldest (r : RpcReport) (qs : List SubscriberQueue)
    (h : r.overall_level ≠ 0) :
    broadcastThreat r qs = qs.map (fun q => putWithDropOldest q r)
    ∧ (∀ q : SubscriberQueue, q.length ≤ queueMaxSize →
        (putWithDropOldest q r).getLast? = some r
        ∧ (putWithDropOldest q r).length ≤ queueMaxSize)
    ∧ (∀ q : SubscriberQueue, q.length = queueMaxSize →
        putWithDropOldest q r = q.drop 1 ++ [r]) := by
  have h100 : queueMaxSize = 100 := rfl
  refine ⟨by simp [broadcastThreat, h], ?_, ?_⟩
  · intro q hq
    unfold putWithDropOldest
    by_cases hl : q.length < queueMaxSize
    · simp only [hl, if_true]
      constructor
      · exact List.getLast?_concat q
      · simp only [List.length_append, List.length_singleton]
        omega
    · have hd : (q.drop 1).length < queueMaxSize := by
        simp only [List.length_drop]
        omega
      simp only [hl, if_false, hd, if_true]
      constructor
      · exact List.getLast?_concat _
      · simp only [List.length_append, List.length_singleton, List.length_drop]
        omega
  · intro q hfull
    have hl : ¬ q.length < queueMaxSize := by omega
    have hd : (q.drop 1).length < queueMaxSize := by
      simp only [List.length_drop]
      omega
    unfold putWithDropOldest
    rw [if_neg hl, if_pos hd]

/-- Witness for C8: a queue already at capacity receives the newest report
and evicts the oldest. -/
theorem broadcast_drop_oldest_witness :
    sampleRpcReport.overall_level ≠ 0
    ∧ putWithDropOldest (List.replicate 100 safeRpcReport) sampleRpcReport
        = (List.replicate 100 safeRpcReport).drop 1 ++ [sampleRpcReport] := by
  have h := broadcast_drop_oldest sampleRpcReport [] (by decide)
  exact ⟨by decide, h.2.2 _ (by simp [queueMaxSize])⟩

-- ============================================================
-- C9: AnalyzePage security score
-- ============================================================

/-- Python `int(q)`: truncation toward zero. -/
def pyInt (q : Rat) : Int := if 0 ≤ q then Int.floor q else -(Int.floor (-q))

/-- The security score computed by `AnalyzePage` (grpc_server.py line 279):
`max(0, 100 - int(report.overall_score * 100))`. -/
def securityScore (report : ThreatReport) : Int :=
  max 0 (100 - pyInt (report.overall_score * 100))

/-- A report whose rollup score is 3/8 (findings of level LOW and MEDIUM,
each with confidence 1). -/
def fractionalReport : ThreatReport :=
  mkReport "http://p" [⟨ThreatType.phishing, 1, 1, "", []⟩, ⟨ThreatType.xss, 2, 1, "", []⟩]

lemma fractionalReport_score : fractionalReport.overall_score = 3 / 8 := by
  show (ThreatReport.add_detail (ThreatReport.add_detail { url := "http://p" } _) _).overall_score
      = 3 / 8
  simp only [ThreatReport.add_detail, ThreatReport.recalculate]
  norm_num [ThreatLevel.CRITICAL]

/-- **C9 counterexample**: the claim says the returned `security_score`
equals `100 - overall_score * 100`.  For a report with `overall_score = 3/8`
the code's `int()` truncation gives `max(0, 100 - int(37.5)) = 63`, while
`100 - 37.5 = 62.5`: the two differ whenever `overall_score * 100` is not an
integer. -/
theorem security_score_not_exact :
    (securityScore fractionalReport : Rat)
      ≠ 100 - fractionalReport.overall_score * 100 := by
  have hs := fractionalReport_score
  have hfloor : pyInt (fractionalReport.overall_score * 100) = 37 := by
    rw [hs]
    have h1 : ((3 : Rat) / 8 * 100) = 75 / 2 := by norm_num
    have h2 : (0 : Rat) ≤ 3 / 8 * 100 := by norm_num
    rw [pyInt, if_pos h2, h1, Int.floor_eq_iff]
    constructor <;> norm_num
  rw [securityScore, hfloor, hs]
  norm_num

/-- **C9 amended**: for every report whose `overall_score` lies in [0,1],
the returned `security_score` equals `100` minus the *floor* of
`overall_score * 100` (the claimed exact value rounded down to an integer),
and it lies in the range 0..100. -/
theorem security_score_floor_bounds (report : ThreatReport)
    (h0 : 0 ≤ report.overall_score) (h1 : report.overall_score ≤ 1) :
    securityScore report = 100 - Int.floor (report.overall_score * 100)
    ∧ 0 ≤ securityScore report ∧ securityScore report ≤ 100 := by
  have hq0 : (0 : Rat) ≤ report.overall_score * 100 := by positivity
  have hpy : pyInt (report.overall_score * 100) = Int.floor (report.overall_score * 100) := by
    rw [pyInt, if_pos hq0]
  have hfl0 : 0 ≤ Int.floor (report.overall_score * 100) := by
    exact Int.floor_nonneg.mpr hq0
  have hfl100 : Int.floor (report.overall_score * 100) ≤ 100 := by
    have : report.overall_score * 100 ≤ (100 : Rat) := by nlinarith
    calc Int.floor (report.overall_score * 100) ≤ Int.floor (100 : Rat) :=
          Int.floor_le_floor this
      _ = 100 := by norm_num
  refine ⟨?_, ?_, ?_⟩
  · rw [securityScore, hpy]
    omega
  · rw [securityScore]
    exact le_max_left 0 _
  · rw [securityScore, hpy]
    omega

/-- Witness for the amended C9 on the concrete 3/8-score report. -/
theorem security_score_floor_bounds_witness :
    (0 ≤ fractionalReport.overall_score ∧ fractionalReport.overall_score ≤ 1)
    ∧ (securityScore fractionalReport
        = 100 - Int.floor (fractionalReport.overall_score * 100)
      ∧ 0 ≤ securityScore fractionalReport ∧ securityScore fractionalReport ≤ 100) := by
  have h0 : 0 ≤ fractionalReport.overall_score := by
    rw [fractionalReport_score]; norm_num
  have h1 : fractionalReport.overall_score ≤ 1 := by
    rw [fractionalReport_score]; norm_num
  exact ⟨⟨h0, h1⟩, security_score_floor_bounds fractionalReport h0 h1⟩

-- ============================================================
-- Realtime monitor: bounded alert list (realtime_monitor.py)
-- ============================================================

/-- Alert severities (realtime_monitor.py lines 16-21). -/
inductive AlertSeverity where
  | info
  | warning
  | danger
  | critical
deriving DecidableEq, Repr

/-- Alert types (realtime_monitor.py lines 24-33). -/
inductive AlertType where
  | script_injection
  | iframe_insertion
  | form_hijack
  | suspicious_request
  | crypto_mining
  | data_exfiltration
  | dom_clobbering
  | eval_execution
deriving DecidableEq, Repr

/-- `SecurityAlert` dataclass (realtime_monitor.py lines 36-44); the open
`details` map is omitted (never read by the cap/callback logic). -/
structure SecurityAlert where
  alert_type : AlertType
  severity : AlertSeverity
  page_id : String
  message : String := ""
  timestamp : Rat := 0
deriving DecidableEq, Repr

/-- `PageMonitorState` dataclass (realtime_monitor.py lines 47-57). -/
structure PageMonitorState where
  page_id : String
  is_active : Bool := true
  alerts : List SecurityAlert := []
  anomaly_score : Rat := 0
  request_count : Nat := 0
  blocked_count : Nat := 0
  mutation_count : Nat := 0
deriving DecidableEq, Repr

/-- `RealtimeMonitor._emit_alert` (realtime_monitor.py lines 345-354): the
alert is appended only while the list is shorter than `max_alerts_per_page`;
the (configured) callback is awaited unconditionally, its errors swallowed.
The boolean records that the callback was invoked for this alert. -/
def emitAlert (maxAlerts : Nat) (st : PageMonitorState) (a : SecurityAlert) :
    PageMonitorState × Bool :=
  (if st.alerts.length < maxAlerts then { st with alerts := st.alerts ++ [a] } else st,
   true)

/-- One detected alert of `on_dom_mutation` / `on_network_request`, together
with the state updates those handlers apply before `_emit_alert` runs: the
anomaly-score increment (e.g. `state.anomaly_score += 0.3`), the
`request_count += 1` and `mutation_count += len(mutations)` bumps, and the
`blocked_count += 1` bump of the known-threat branch
(realtime_monitor.py line 253).  The regex detection logic itself does not
read `state.alerts`, so the claims hold for every possible detection
outcome, which is left universally quantified. -/
structure MonitorEvent where
  alert : SecurityAlert
  anomalyDelta : Rat := 0
  requestDelta : Nat := 0
  blockedDelta : Nat := 0
  mutationDelta : Nat := 0
deriving DecidableEq, Repr

/-- Process one detected alert: bump the counters and the anomaly score
(as the handlers do unconditionally, before and regardless of the alert-list
cap), then `_emit_alert`.  The second component counts callback
invocations. -/
def applyEvent (maxAlerts : Nat) (acc : PageMonitorState × Nat) (ev : MonitorEvent) :
    PageMonitorState × Nat :=
  let st1 := { acc.1 with
    anomaly_score := acc.1.anomaly_score + ev.anomalyDelta,
    request_count := acc.1.request_count + ev.requestDelta,
    blocked_count := acc.1.blocked_count + ev.blockedDelta,
    mutation_count := acc.1.mutation_count + ev.mutationDelta }
  let out := emitAlert maxAlerts st1 ev.alert
  (out.1, acc.2 + (if out.2 then 1 else 0))

/-- Run a whole sequence of monitor events against a page state. -/
def runEvents (maxAlerts : Nat) (st : PageMonitorState) (evs : List MonitorEvent) :
    PageMonitorState × Nat :=
  evs.foldl (applyEvent maxAlerts) (st, 0)

lemma runEvents_general (maxAlerts : Nat) (evs : List MonitorEvent)
    (st : PageMonitorState) (n : Nat) :
    (evs.foldl (applyEvent maxAlerts) (st, n)).1.alerts
        = st.alerts ++ ((evs.map (·.alert)).take (maxAlerts - st.alerts.length))
    ∧ (evs.foldl (applyEvent maxAlerts) (st, n)).2 = n + evs.length
    ∧ (evs.foldl (applyEvent maxAlerts) (st, n)).1.anomaly_score
        = st.anomaly_score + (evs.map (·.anomalyDelta)).sum
    ∧ (evs.foldl (applyEvent maxAlerts) (st, n)).1.request_count
        = st.request_count + (evs.map (·.requestDelta)).sum
    ∧ (evs.foldl (applyEvent maxAlerts) (st, n)).1.blocked_count
        = st.blocked_count + (evs.map (·.blockedDelta)).sum
    ∧ (evs.foldl (applyEvent maxAlerts) (st, n)).1.mutation_count
        = st.mutation_count + (evs.map (·.mutationDelta)).sum := by
  induction evs generalizing st n with
  | nil => simp
  | cons ev rest ih =>
    by_cases hl : st.alerts.length < maxAlerts
    · have hstep : applyEvent maxAlerts (st, n) ev
          = ({ st with
                anomaly_score := st.anomaly_score + ev.anomalyDelta,
                request_count := st.request_count + ev.requestDelta,
                blocked_count := st.blocked_count + ev.blockedDelta,
                mutation_count := st.mutation_count + ev.mutationDelta,
                alerts := st.alerts ++ [ev.alert] }, n + 1) := by
        simp [applyEvent, emitAlert, hl]
      obtain ⟨ih1, ih2, ih3, ih4, ih5, ih6⟩ := ih ({ st with
                anomaly_score := st.anomaly_score + ev.anomalyDelta,
                request_count := st.request_count + ev.requestDelta,
                blocked_count := st.blocked_count + ev.blockedDelta,
                mutation_count := st.mutation_count + ev.mutationDelta,
                alerts := st.alerts ++ [ev.alert] }) (n + 1)
      have htake : maxAlerts - st.alerts.length
          = (maxAlerts - (st.alerts.length + 1)) + 1 := by omega
      refine ⟨?_, ?_, ?_, ?_, ?_, ?_⟩
      · rw [List.foldl_cons, hstep, ih1]
        simp only [List.map_cons, List.length_append, List.length_singleton, htake,
          List.take_succ_cons, List.append_assoc, List.cons_append, List.nil_append]
      · rw [List.foldl_cons, hstep, ih2]
        simp only [List.length_cons]
        omega
      · rw [List.foldl_cons, hstep, ih3]
        simp only [List.map_cons, List.sum_cons]
        ring
      · rw [List.foldl_cons, hstep, ih4]
        simp only [List.map_cons, List.sum_cons]
        ring
      · rw [List.foldl_cons, hstep, ih5]
        simp only [List.map_cons, List.sum_cons]
        ring
      · rw [List.foldl_cons, hstep, ih6]
        simp only [List.map_cons, List.sum_cons]
        ring
    · have hstep : applyEvent maxAlerts (st, n) ev
          = ({ st with
                anomaly_score := st.anomaly_score + ev.anomalyDelta,
                request_count := st.request_count + ev.requestDelta,
                blocked_count := st.blocked_count + ev.blockedDelta,
                mutation_count := st.mutation_count + ev.mutationDelta }, n + 1) := by
        simp [applyEvent, emitAlert, hl]
      obtain ⟨ih1, ih2, ih3, ih4, ih5, ih6⟩ := ih ({ st with
                anomaly_score := st.anomaly_score + ev.anomalyDelta,
                request_count := st.request_count + ev.requestDelta,
                blocked_count := st.blocked_count + ev.blockedDelta,
                mutation_count := st.mutation_count + ev.mutationDelta }) (n + 1)
      have htake : maxAlerts - st.alerts.length = 0 := by omega
      refine ⟨?_, ?_, ?_, ?_, ?_, ?_⟩
      · rw [List.foldl_cons, hstep, ih1]
        simp [htake]
      · rw [List.foldl_cons, hstep, ih2]
        simp only [List.length_cons]
        omega
      · rw [List.foldl_cons, hstep, ih3]
        simp only [List.map_cons, List.sum_cons]
        ring
      · rw [List.foldl_cons, hstep, ih4]
        simp only [List.map_cons, List.sum_cons]
        ring
      · rw [List.foldl_cons, hstep, ih5]
        simp only [List.map_cons, List.sum_cons]
        ring
      · rw [List.foldl_cons, hstep, ih6]
        simp only [List.map_cons, List.sum_cons]
        ring

-- ============================================================
-- C10: bounded alert list, oldest kept, callback always invoked
-- ============================================================

/-- **C10**: monitoring a fresh page, under *any* sequence of detected
alerts the alert list is exactly the first `maxAlerts` alerts raised (so it
never exceeds the cap, the oldest alerts are kept and the newest discarded
once the cap is reached), the callback is invoked for every alert including
the discarded ones, and the anomaly score and the request / blocked /
mutation counters still accumulate every increment, including those of
discarded alerts. -/
theorem monitor_alert_cap (maxAlerts : Nat) (page : String)
    (evs : List MonitorEvent) :
    (runEvents maxAlerts { page_id := page } evs).1.alerts
        = (evs.map (·.alert)).take maxAlerts
    ∧ (runEvents maxAlerts { page_id := page } evs).1.alerts.length ≤ maxAlerts
    ∧ (runEvents maxAlerts { page_id := page } evs).2 = evs.length
    ∧ (runEvents maxAlerts { page_id := page } evs).1.anomaly_score
        = (evs.map (·.anomalyDelta)).sum
    ∧ (runEvents maxAlerts { page_id := page } evs).1.request_count
        = (evs.map (·.requestDelta)).sum
    ∧ (runEvents maxAlerts { page_id := page } evs).1.blocked_count
        = (evs.map (·.blockedDelta)).sum
    ∧ (runEvents maxAlerts { page_id := page } evs).1.mutation_count
        = (evs.map (·.mutationDelta)).sum := by
  obtain ⟨h1, h2, h3, h4, h5, h6⟩ := runEvents_general maxAlerts evs { page_id := page } 0
  refine ⟨?_, ?_, ?_, ?_, ?_, ?_, ?_⟩
  · simpa [runEvents] using h1
  · have := h1
    simp only [runEvents]
    rw [this]
    exact List.length_take_le maxAlerts (evs.map (·.alert))
  · simpa [runEvents] using h2
  · simpa [runEvents] using h3
  · simpa [runEvents] using h4
  · simpa [runEvents] using h5
  · simpa [runEvents] using h6

-- ============================================================
-- Phishing URL analysis (src/agent/analyzers/phishing_analyzer.py)
-- ============================================================

/-- Strings are processed as explicit character lists. -/
abbrev Chars := List Char

/-- Python `str.split(sep)` for a single-character separator. -/
def splitAll (s : Chars) (sep : Char) : List Chars :=
  s.foldr
    (fun x acc =>
      match acc with
      | [] => [[x]]
      | a :: rest => if x = sep then [] :: (a :: rest) else (x :: a) :: rest)
    [[]]

/-- The slice of `urllib.parse.urlparse` exercised here: absolute URLs of
shape `scheme://netloc/path?query#fragment` (the only shape the claims
evaluate); anything without `://` is treated as a bare path, as urlparse
does for scheme-less input. -/
structure ParsedUrl where
  scheme : Chars := []
  netloc : Chars := []
  path : Chars := []
  query : Chars := []
  fragment : Chars := []
deriving DecidableEq, Repr

def parseUrl (url : Chars) : ParsedUrl :=
  let sp := url.span (fun c => c != ':')
  if (sp.2.take 3) = [':', '/', '/'] then
    let rest1 := sp.2.drop 3
    let fr := rest1.span (fun c => c != '#')
    let qu := fr.1.span (fun c => c != '?')
    let np := qu.1.span (fun c => c != '/')
    { scheme := sp.1.map Char.toLower, netloc := np.1, path := np.2,
      query := qu.2.drop 1, fragment := fr.2.drop 1 }
  else
    { path := url }

/-- `parsed.hostname` (lowercased, userinfo and port stripped) and
`parsed.port` of the netloc. -/
def netlocHostPort (netloc : Chars) : Chars × Option Nat :=
  let afterAt := (splitAll netloc '@').getLastD []
  let ps := splitAll afterAt ':'
  if ps.length = 2 then
    let host := (ps.headD []).map Char.toLower
    let portDigits := ps.getLastD []
    if portDigits ≠ [] ∧ portDigits.all Char.isDigit then
      (host, some (portDigits.foldl (fun n c => n * 10 + (c.toNat - 48)) 0))
    else (host, none)
  else (afterAt.map Char.toLower, none)

/-- The keys of `HOMOGLYPH_MAP` (phishing_analyzer.py lines 32-54). -/
def homoglyphChars : Chars :=
  ['а', 'е', 'о', 'р', 'с', 'у', 'х', 'ѕ', 'і', 'ј', 'ԁ', 'ɡ', 'ɩ',
   'ո', 'ν', 'τ', 'ω', 'ℓ', '０', '１', 'ⅰ']

/-- `SUSPICIOUS_TLDS` (phishing_analyzer.py lines 60-66). -/
def suspiciousTlds : List Chars :=
  [".tk", ".ml", ".ga", ".cf", ".gq",
   ".top", ".xyz", ".club", ".work", ".buzz",
   ".icu", ".cam", ".rest", ".surf", ".monster",
   ".uno", ".click", ".link", ".info", ".pw",
   ".cc", ".ws", ".ru", ".cn"].map String.toList

/-- `FAMOUS_DOMAINS` (phishing_analyzer.py lines 72-81). -/
def famousDomains : List Chars :=
  ["google.com", "facebook.com", "amazon.com", "apple.com",
   "microsoft.com", "netflix.com", "paypal.com", "instagram.com",
   "twitter.com", "linkedin.com", "github.com", "yahoo.com",
   "dropbox.com", "chase.com", "wellsfargo.com", "bankofamerica.com",
   "citibank.com", "usbank.com", "ebay.com", "walmart.com",
   "naver.com", "kakao.com", "daum.net", "samsung.com",
   "coinbase.com", "binance.com", "blockchain.com",
   "icloud.com", "outlook.com", "gmail.com"].map String.toList

/-- The brand-name list of `_contains_brand_name`
(phishing_analyzer.py lines 653-659). -/
def brandNames : List Chars :=
  ["google", "facebook", "amazon", "apple", "microsoft",
   "netflix", "paypal", "instagram", "twitter", "linkedin",
   "github", "yahoo", "dropbox", "chase", "wells",
   "citibank", "ebay", "walmart", "naver", "kakao",
   "samsung", "coinbase", "binance", "icloud"].map String.toList

/-- The IPv4 regex of the analyzer,
`^(\d\x7b1,3\x7d\.)\x7b3\x7d\d\x7b1,3\x7d$`: four groups of one to three
digits separated by dots. -/
def matchesIpPattern (host : Chars) : Bool :=
  let parts := splitAll host '.'
  parts.length = 4 &&
    parts.all (fun p => 1 ≤ p.length && p.length ≤ 3 && p.all Char.isDigit)

/-- Count of `%XX` escapes, the regex `%[0-9a-fA-F]\x7b2\x7d` with
non-overlapping `findall` semantics. -/
def isHexDigitChar (c : Char) : Bool :=
  c.isDigit || ('a' ≤ c && c ≤ 'f') || ('A' ≤ c && c ≤ 'F')

def countEncoded : Chars → Nat
  | '%' :: a :: b :: rest =>
    if isHexDigitChar a && isHexDigitChar b then countEncoded rest + 1
    else countEncoded (a :: b :: rest)
  | _ :: rest => countEncoded rest
  | [] => 0

/-- The multiset of character counts of a string. -/
def charCounts (s : Chars) : List Nat :=
  s.dedup.map (fun c => s.count c)

/-- Decides `Shannon entropy of s > a / b` exactly (`_calculate_entropy`
computes `H = -Σ p·log2 p`; clearing the logarithms,
`H > a/b  ↔  n^(b·n) > 2^(a·n) · (Π count^count)^b` where `n = s.length`).
The empty string has entropy 0, matching the source's early return. -/
def entropyGT (s : Chars) (a b : Nat) : Bool :=
  let n := s.length
  let p := (charCounts s).foldl (fun acc k => acc * k ^ k) 1
  2 ^ (a * n) * p ^ b < n ^ (b * n)

/-- The two-row Levenshtein inner loop of `_levenshtein_distance`
(phishing_analyzer.py lines 600-620): walk `s2` with the previous row,
carrying the last entry of the current row. -/
def levRowAux (c1 : Char) : Chars → List Nat → Nat → List Nat
  | [], _, _ => []
  | c2 :: cs, pj :: prest, lastCurr =>
    match prest with
    | pj1 :: _ =>
      let cost := min (pj1 + 1) (min (lastCurr + 1) (pj + (if c1 = c2 then 0 else 1)))
      cost :: levRowAux c1 cs prest cost
    | [] => []
  | _ :: _, [], _ => []

def levDistAux (s1 s2 : Chars) : Nat :=
  let initRow := List.range (s2.length + 1)
  let finalRow := (s1.foldl
    (fun (acc : List Nat × Nat) c1 =>
      ((acc.2 + 1) :: levRowAux c1 s2 acc.1 (acc.2 + 1), acc.2 + 1))
    (initRow, 0)).1
  finalRow.getLastD 0

/-- `_levenshtein_distance`: the source first swaps so that `s1` is the
longer string. -/
def levenshteinDistance (s1 s2 : Chars) : Nat :=
  if s1.length < s2.length then levDistAux s2 s1 else levDistAux s1 s2

/-- `_detect_typosquatting` (phishing_analyzer.py lines 562-598).  Returns
`(detected, similar_to, similarity)` with the similarity kept as the exact
fraction `(maxLen - distance, maxLen)`; the source's float comparisons
`similarity > best_similarity` and `best_similarity >= 0.80` are decided
exactly by cross-multiplication of these fractions. -/
def detectTyposquat (domain : Chars) : Bool × Chars × (Nat × Nat) :=
  let parts := splitAll domain '.'
  let base := if 2 ≤ parts.length
    then List.intercalate ['.'] (parts.drop (parts.length - 2))
    else domain
  if famousDomains.contains base then (false, [], (0, 1))
  else
    let best := famousDomains.foldl
      (fun (acc : Chars × Nat × Nat) famous =>
        let d := levenshteinDistance base famous
        let m := max base.length famous.length
        let sim : Nat × Nat := if 0 < m then (m - d, m) else (0, 1)
        if acc.2.1 * sim.2 < sim.1 * acc.2.2 then (famous, sim) else acc)
      ([], 0, 1)
    let detected := 4 * best.2.2 ≤ 5 * best.2.1 && !(best.1 == base)
    if detected then (true, best.1, best.2) else (false, [], (0, 1))

/-- Python `needle in hay` substring test on character lists. -/
def listIsSubstr : Chars → Chars → Bool
  | needle, [] => needle.isEmpty
  | needle, c :: rest => needle.isPrefixOf (c :: rest) || listIsSubstr needle rest

/-- `_contains_brand_name` (phishing_analyzer.py lines 651-669). -/
def containsBrandName (domain : Chars) : Bool :=
  let dl := domain.map Char.toLower
  brandNames.any (fun brand =>
    let official := brand ++ ".com".toList
    listIsSubstr brand dl && !(dl == official) && !(('.' :: official).isSuffixOf dl))

/-- The features of `_extract_url_features` that `_calculate_url_score`
reads (phishing_analyzer.py lines 221-307).  Float-valued entries are exact
rationals; the two entropy threshold tests are carried as the exact boolean
outcomes `entropy > 4.5` / `entropy > 5.0` (see `entropyGT`). -/
structure URLFeatures where
  url : Chars
  domain : Chars
  scheme : Chars
  path : Chars
  length : Nat
  subdomain_count : Nat
  is_ip_address : Bool
  is_https : Bool
  has_port : Bool
  special_ratio_q : Rat
  digit_ratio_q : Rat
  has_at_symbol : Bool
  has_double_hyphen : Bool
  encoded_char_count : Nat
  is_suspicious_tld : Bool
  path_depth : Int
  entropy_gt_4_5 : Bool
  entropy_gt_5 : Bool
  has_homoglyphs : Bool
  is_typosquatting : Bool
  domain_similarity : Rat
  contains_brand_name : Bool
deriving Repr

attribute [ext] URLFeatures

/-- `PhishingAnalyzer._extract_url_features` (phishing_analyzer.py lines
221-307), restricted to the features the URL score reads. -/
def extractUrlFeatures (url : Chars) : URLFeatures :=
  let parsed := parseUrl url
  let hp := netlocHostPort parsed.netloc
  let domain := hp.1
  let path := parsed.path
  let domainParts := splitAll domain '.'
  let specialCount :=
    (url.filter (fun c => !c.isAlphanum && !([':', '/', '.', '-', '_'].contains c))).length
  let digitCount := (domain.filter Char.isDigit).length
  let tld := '.' :: domainParts.getLastD []
  let typo := detectTyposquat domain
  { url := url
    domain := domain
    scheme := parsed.scheme
    path := path
    length := url.length
    subdomain_count := domainParts.length - 2
    is_ip_address := matchesIpPattern domain
    is_https := parsed.scheme == "https".toList
    has_port := match hp.2 with
      | some p => !(p = 80 || p = 443)
      | none => false
    special_ratio_q := (specialCount : Rat) / ((max url.length 1 : Nat) : Rat)
    digit_ratio_q := (digitCount : Rat) / ((max domain.length 1 : Nat) : Rat)
    has_at_symbol := url.contains '@'
    has_double_hyphen := listIsSubstr ['-', '-'] domain
    encoded_char_count := countEncoded url
    is_suspicious_tld := suspiciousTlds.contains (tld.map Char.toLower)
    path_depth := if path.isEmpty then 0 else (path.count '/' : Int) - 1
    entropy_gt_4_5 := entropyGT url 9 2
    entropy_gt_5 := entropyGT url 5 1
    has_homoglyphs := domain.any (fun c => homoglyphChars.contains c)
    is_typosquatting := typo.1
    domain_similarity := (typo.2.2.1 : Rat) / (typo.2.2.2 : Rat)
    contains_brand_name := containsBrandName domain }

-- ============================================================
-- URL score (phishing_analyzer.py lines 396-477) and analyze_url
-- ============================================================

/-- The weight list built by `_calculate_url_score` (phishing_analyzer.py
lines 396-477), in source order. -/
def urlWeights (f : URLFeatures) : List (String × Rat) :=
  (if f.is_ip_address then [("ip_address", 30/100)] else [])
  ++ (if !f.is_https then [("no_https", 10/100)] else [])
  ++ (if f.is_suspicious_tld then [("suspicious_tld", 15/100)] else [])
  ++ (if 3 ≤ f.subdomain_count then [("many_subdomains", 15/100)]
      else if 2 ≤ f.subdomain_count then [("some_subdomains", 8/100)] else [])
  ++ (if 100 < f.length then [("very_long_url", 12/100)]
      else if 75 < f.length then [("long_url", 8/100)] else [])
  ++ (if f.entropy_gt_5 then [("very_high_entropy", 12/100)]
      else if f.entropy_gt_4_5 then [("high_entropy", 8/100)] else [])
  ++ (if f.has_at_symbol then [("at_symbol", 20/100)] else [])
  ++ (if f.has_port then [("unusual_port", 15/100)] else [])
  ++ (if f.has_homoglyphs then [("homoglyphs", 30/100)] else [])
  ++ (if f.is_typosquatting
      then [("typosquatting", 25/100 + f.domain_similarity * (10/100))] else [])
  ++ (if f.contains_brand_name then [("brand_in_domain", 15/100)] else [])
  ++ (if (3/10 : Rat) < f.digit_ratio_q then [("high_digit_ratio", 8/100)] else [])
  ++ (if (2/10 : Rat) < f.special_ratio_q
      then [("high_special_char_weight", 8/100)] else [])
  ++ (if 3 < f.encoded_char_count then [("many_encoded_chars", 10/100)] else [])
  ++ (if f.has_double_hyphen then [("double_hyphen", 5/100)] else [])
  ++ (if 5 < f.path_depth then [("deep_path", 5/100)] else [])

/-- `_calculate_url_score`: sum the weights, clamp with
`min(1.0, max(0.0, score))`. -/
def calculateUrlScore (f : URLFeatures) : Rat :=
  min 1 (max 0 ((urlWeights f).map (·.2)).sum)

/-- `PhishingAnalyzer._score_to_level` (phishing_analyzer.py lines 736-747). -/
def scoreToLevel (score : Rat) : ThreatLevel :=
  if 9/10 ≤ score then ThreatLevel.CRITICAL
  else if 75/100 ≤ score then ThreatLevel.HIGH
  else if 1/2 ≤ score then ThreatLevel.MEDIUM
  else if 3/10 ≤ score then ThreatLevel.LOW
  else ThreatLevel.SAFE

/-- `PhishingAnalyzer.analyze_url` (phishing_analyzer.py lines 146-179):
below the configured `phishing_threshold` no finding is returned; otherwise
a phishing detail whose confidence is the URL score.  The human-readable
description and indicator strings are left at their defaults: no claim reads
them. -/
def phishingAnalyzeUrl (threshold : Rat) (url : Chars) : Option ThreatDetail :=
  let score := calculateUrlScore (extractUrlFeatures url)
  if score < threshold then none
  else some { threat_type := ThreatType.phishing,
              threat_level := scoreToLevel score,
              confidence := score }

/-- The default `ThreatConfig.phishing_threshold` (config.py lines 70-76). -/
def defaultPhishingThreshold : Rat := 7/10

-- ============================================================
-- C4: the E2E scenario for http://192.168.1.1/login
-- ============================================================

/-- The scenario URL of E2E scenario A. -/
def ipUrlS : String := "http://192.168.1.1/login"

def ipUrl : Chars := ipUrlS.toList

/-- The exact features the analyzer extracts for the scenario URL. -/
def ipUrlFeatures : URLFeatures :=
  { url := ipUrl
    domain := "192.168.1.1".toList
    scheme := "http".toList
    path := "/login".toList
    length := 24
    subdomain_count := 2
    is_ip_address := true
    is_https := false
    has_port := false
    special_ratio_q := ((0 : Nat) : Rat) / ((24 : Nat) : Rat)
    digit_ratio_q := ((8 : Nat) : Rat) / ((11 : Nat) : Rat)
    has_at_symbol := false
    has_double_hyphen := false
    encoded_char_count := 0
    is_suspicious_tld := false
    path_depth := 0
    entropy_gt_4_5 := false
    entropy_gt_5 := false
    has_homoglyphs := false
    is_typosquatting := false
    domain_similarity := ((0 : Nat) : Rat) / ((1 : Nat) : Rat)
    contains_brand_name := false }

lemma ipUrl_features : extractUrlFeatures ipUrl = ipUrlFeatures := by
  ext : 1 <;> rfl

lemma ipUrl_score : calculateUrlScore (extractUrlFeatures ipUrl) = 14/25 := by
  rw [ipUrl_features]
  norm_num [calculateUrlScore, urlWeights, ipUrlFeatures, max_def, min_def]

/-- The finding emitted for the scenario URL once the threshold admits it. -/
def ipUrlDetail : ThreatDetail :=
  { threat_type := ThreatType.phishing,
    threat_level := ThreatLevel.MEDIUM,
    confidence := 14/25 }

/-- The report `analyze_url` builds from that finding. -/
def ipUrlReport : ThreatReport :=
  ({ url := ipUrlS } : ThreatReport).add_detail ipUrlDetail

/-- **C4 counterexample**: with the default `phishing_threshold = 0.7`
(config.py line 72) the scenario URL scores only
`0.30 (ip) + 0.10 (no https) + 0.08 (two "subdomains") + 0.08 (digit ratio)
= 0.56 < 0.7`, so `analyze_url` yields *no* phishing finding and the
orchestrated report stays at `overall_level = SAFE`, contrary to the claimed
finding with confidence ≥ 0.30 and level ≥ LOW. -/
theorem ip_url_scenario_fails :
    phishingAnalyzeUrl defaultPhishingThreshold ipUrl = none
    ∧ analyzeUrlMerge ipUrlS (.ok (phishingAnalyzeUrl defaultPhishingThreshold ipUrl)) none
        = .ok ({ url := ipUrlS } : ThreatReport)
    ∧ ¬ ThreatLevel.LOW ≤ ({ url := ipUrlS } : ThreatReport).overall_level := by
  have hn : phishingAnalyzeUrl defaultPhishingThreshold ipUrl = none := by
    rw [phishingAnalyzeUrl, ipUrl_score]
    norm_num [defaultPhishingThreshold]
  refine ⟨hn, ?_, ?_⟩
  · rw [hn]
    rfl
  · decide

/-- **C4 amended**: the IP-address heuristic does contribute its +0.30
weight: the scenario URL's score is exactly 0.56, so whenever the configured
`phishing_threshold` is at most 0.56 (the default 0.7 is not),
`analyze_url` emits a phishing finding with confidence 0.56 ≥ 0.30 at level
MEDIUM, and the orchestrated report's `overall_level` is MEDIUM ≥ LOW. -/
theorem ip_url_flags_below_threshold (t : Rat) (ht : t ≤ 14/25) :
    phishingAnalyzeUrl t ipUrl = some ipUrlDetail
    ∧ (3/10 : Rat) ≤ ipUrlDetail.confidence
    ∧ analyzeUrlMerge ipUrlS (.ok (phishingAnalyzeUrl t ipUrl)) none = .ok ipUrlReport
    ∧ ThreatLevel.LOW ≤ ipUrlReport.overall_level := by
  have hlvl : scoreToLevel (14/25) = ThreatLevel.MEDIUM := by
    norm_num [scoreToLevel, ThreatLevel.MEDIUM]
  have hsome : phishingAnalyzeUrl t ipUrl = some ipUrlDetail := by
    rw [phishingAnalyzeUrl, ipUrl_score]
    rw [if_neg (not_lt.mpr ht), hlvl]
    rfl
  refine ⟨hsome, by norm_num [ipUrlDetail], ?_, ?_⟩
  · rw [hsome]
    rfl
  · show ThreatLevel.LOW ≤ (ThreatReport.recalculate _).overall_level
    simp [ThreatReport.recalculate, ipUrlDetail, ThreatLevel.LOW, ThreatLevel.MEDIUM]

/-- Witness for the amended C4 at the concrete threshold 1/2. -/
theorem ip_url_flags_below_threshold_witness :
    ((1/2 : Rat) ≤ 14/25)
    ∧ (phishingAnalyzeUrl (1/2) ipUrl = some ipUrlDetail
      ∧ (3/10 : Rat) ≤ ipUrlDetail.confidence
      ∧ analyzeUrlMerge ipUrlS (.ok (phishingAnalyzeUrl (1/2) ipUrl)) none = .ok ipUrlReport
      ∧ ThreatLevel.LOW ≤ ipUrlReport.overall_level) :=
  have ht : (1/2 : Rat) ≤ 14/25 := by norm_num
  ⟨ht, ip_url_flags_below_threshold (1/2) ht⟩

end Ordinal
